import Mathlib

/-!
Verification of the signal-generation and risk core of the syscry backend.

The Python sources are shallowly embedded over exact rational arithmetic:
machine floats become rationals, a Python float division becomes the
fallible operation pydiv so that ZeroDivisionError is observable, raised
exceptions become the error case of Except, optional / nullable arguments
become Option, and the built-in round (banker rounding to a number of
decimal places) becomes roundTo built on round-half-to-even.
-/

namespace Syscry

/-- numpy clip: clamp a value into the interval from lo to hi, applying the
lower bound first, exactly as np.clip does. -/
def clip (x lo hi : ℚ) : ℚ := min hi (max lo x)

/-- Round half to even on rationals, mirroring the tie-breaking rule of the
Python built-in round. -/
def rhe (x : ℚ) : ℤ :=
  if x - (⌊x⌋ : ℚ) < 1/2 then ⌊x⌋
  else if 1/2 < x - (⌊x⌋ : ℚ) then ⌊x⌋ + 1
  else if ⌊x⌋ % 2 = 0 then ⌊x⌋ else ⌊x⌋ + 1

/-- Python round(x, n): round half to even at n decimal places. -/
def roundTo (n : ℕ) (x : ℚ) : ℚ := ((rhe (x * 10 ^ n) : ℚ)) / 10 ^ n

/-- Python float division: raises ZeroDivisionError on a zero denominator. -/
def pydiv (a b : ℚ) : Except Unit ℚ := if b = 0 then .error () else .ok (a / b)

/-- The Signal enum of ml/market_predictor.py (five ordinal severities). -/
inductive Signal where
  | STRONG_BUY
  | BUY
  | HOLD
  | SELL
  | STRONG_SELL
deriving DecidableEq

/-- Constructor arguments of MarketPredictor, with the defaults of both the
class and the create_market_predictor factory. -/
structure PredictorConfig where
  min_confidence : ℚ := 0.55
  max_leverage : ℚ := 10
  min_leverage : ℚ := 1
  risk_per_trade : ℚ := 0.02
deriving DecidableEq

/-- create_market_predictor with no config: all defaults. -/
def create_market_predictor : PredictorConfig := {}

/-- The confluence scoring part of MarketPredictor.predict_signal:
accumulates buy and sell points from the six weighted sources, in source
order (ML probability, RSI contrarian, price vs EMA, MACD, stochastic,
volume bonus). Returns the pair buy_score, sell_score. -/
def confluence_scores (probability rsi price ema20 : ℚ)
    (sentiment adx volume_ratio macd stoch_k : Option ℚ) : ℕ × ℕ :=
  let is_trending : Bool := match adx with
    | none => true
    | some a => decide (25 < a)
  let has_strong_volume : Bool := match volume_ratio with
    | none => false
    | some v => decide (1.5 < v)
  let adjusted_prob : ℚ := match sentiment with
    | none => probability
    | some s => clip (probability + s * 0.1) 0 1
  let ml : ℕ × ℕ :=
    if 0.65 < adjusted_prob then (3, 0)
    else if 0.55 < adjusted_prob then (1, 0)
    else if adjusted_prob < 0.35 then (0, 3)
    else if adjusted_prob < 0.45 then (0, 1)
    else (0, 0)
  let rsiScore : ℕ × ℕ :=
    if rsi < 30 then (2, 0)
    else if rsi < 40 then (1, 0)
    else if 70 < rsi then (0, 2)
    else if 60 < rsi then (0, 1)
    else (0, 0)
  let ema_distance : ℚ := if 0 < ema20 then (price - ema20) / ema20 else 0
  let emaScore : ℕ × ℕ :=
    if 0.02 < ema_distance then (if is_trending then 2 else 1, 0)
    else if ema_distance < -0.02 then (0, if is_trending then 2 else 1)
    else (0, 0)
  let macdScore : ℕ × ℕ := match macd with
    | none => (0, 0)
    | some m => if 0 < m then (1, 0) else if m < 0 then (0, 1) else (0, 0)
  let stochScore : ℕ × ℕ := match stoch_k with
    | none => (0, 0)
    | some k => if k < 20 then (1, 0) else if 80 < k then (0, 1) else (0, 0)
  let buy0 := ml.1 + rsiScore.1 + emaScore.1 + macdScore.1 + stochScore.1
  let sell0 := ml.2 + rsiScore.2 + emaScore.2 + macdScore.2 + stochScore.2
  if has_strong_volume then
    if sell0 < buy0 then (buy0 + 1, sell0)
    else if buy0 < sell0 then (buy0, sell0 + 1)
    else (buy0, sell0)
  else (buy0, sell0)

/-- MarketPredictor.predict_signal: market-regime detection plus confluence
scoring. The volatility argument is accepted but, as in the source, unused
by the scoring. -/
def predict_signal (probability rsi price ema20 _volatility : ℚ)
    (sentiment adx volume_ratio macd stoch_k : Option ℚ) : Signal :=
  let is_trending : Bool := match adx with
    | none => true
    | some a => decide (25 < a)
  let is_strong_trend : Bool := match adx with
    | none => false
    | some a => decide (40 < a)
  let is_ranging : Bool := match adx with
    | none => false
    | some a => decide (a < 20)
  let has_volume : Bool := match volume_ratio with
    | none => true
    | some v => decide (1 < v)
  let scores := confluence_scores probability rsi price ema20 sentiment adx
    volume_ratio macd stoch_k
  let buy_score := scores.1
  let sell_score := scores.2
  if is_ranging then
    if rsi < 25 ∧ 4 ≤ buy_score then Signal.BUY
    else if 75 < rsi ∧ 4 ≤ sell_score then Signal.SELL
    else Signal.HOLD
  else if 6 ≤ buy_score ∧ is_strong_trend ∧ has_volume then Signal.STRONG_BUY
  else if 6 ≤ sell_score ∧ is_strong_trend ∧ has_volume then Signal.STRONG_SELL
  else if 4 ≤ buy_score ∧ is_trending then Signal.BUY
  else if 4 ≤ sell_score ∧ is_trending then Signal.SELL
  else Signal.HOLD

/-- MarketPredictor.calculate_leverage. -/
def calculate_leverage (cfg : PredictorConfig) (probability volatility : ℚ)
    (signal : Signal) : ℚ :=
  if signal = Signal.HOLD then 1
  else
    let confidence := |probability - 0.5| * 2
    let volatility_factor := 1 - clip (volatility * 10) 0 0.8
    let base_leverage := 1 + confidence * volatility_factor * (cfg.max_leverage - 1)
    let boosted :=
      if signal = Signal.STRONG_BUY ∨ signal = Signal.STRONG_SELL
      then base_leverage * 1.2 else base_leverage
    roundTo 2 (clip boosted cfg.min_leverage cfg.max_leverage)

/-- Return value of MarketPredictor.calculate_position_size. -/
structure PositionInfo where
  position_size : ℚ
  quantity : ℚ
  risk_amount : ℚ
  capital_required : ℚ
deriving DecidableEq

/-- MarketPredictor.calculate_position_size. Every float division of the
source is a pydiv, so the ZeroDivisionError raised when the stop equals the
entry (or entry or leverage is zero) appears as the error case. -/
def calculate_position_size (cfg : PredictorConfig)
    (account_balance entry_price stop_loss_price leverage : ℚ) :
    Except Unit PositionInfo := do
  let risk_per_unit := |entry_price - stop_loss_price|
  let max_risk := account_balance * cfg.risk_per_trade
  let perUnit ← pydiv max_risk risk_per_unit
  let position_value := min (perUnit * entry_price) (account_balance * leverage)
  let quantity ← pydiv position_value entry_price
  let capital ← pydiv position_value leverage
  return { position_size := roundTo 2 position_value
           quantity := roundTo 8 quantity
           risk_amount := roundTo 2 max_risk
           capital_required := roundTo 2 capital }

/-- Return value of MarketPredictor.calculate_stop_loss_take_profit; the
stop and target are None for HOLD. -/
structure StopTarget where
  stop_loss : Option ℚ
  take_profit : Option ℚ
  rr_ratio : ℚ
  stop_distance : Option ℚ
deriving DecidableEq

/-- MarketPredictor.calculate_stop_loss_take_profit. -/
def calculate_stop_loss_take_profit (entry_price : ℚ) (signal : Signal)
    (atr : ℚ) (rr_ratio : ℚ) : StopTarget :=
  let atr_multiplier : ℚ :=
    if signal = Signal.STRONG_BUY ∨ signal = Signal.STRONG_SELL then 1.5 else 2
  let stop_distance := atr * atr_multiplier
  if signal = Signal.BUY ∨ signal = Signal.STRONG_BUY then
    { stop_loss := some (roundTo 2 (entry_price - stop_distance))
      take_profit := some (roundTo 2 (entry_price + stop_distance * rr_ratio))
      rr_ratio := rr_ratio
      stop_distance := some (roundTo 2 stop_distance) }
  else if signal = Signal.SELL ∨ signal = Signal.STRONG_SELL then
    { stop_loss := some (roundTo 2 (entry_price + stop_distance))
      take_profit := some (roundTo 2 (entry_price - stop_distance * rr_ratio))
      rr_ratio := rr_ratio
      stop_distance := some (roundTo 2 stop_distance) }
  else
    { stop_loss := none, take_profit := none, rr_ratio := 0, stop_distance := none }

/-- The indicators dict handed to MarketPredictor.generate_prediction; a
missing key is none and the .get defaults of the source are applied inside
generate_prediction. -/
structure IndicatorMap where
  rsi : Option ℚ := none
  ema20 : Option ℚ := none
  atr : Option ℚ := none
  volatility : Option ℚ := none
  adx : Option ℚ := none
  volume_ratio : Option ℚ := none
  macd : Option ℚ := none
  stoch_k : Option ℚ := none
deriving DecidableEq

/-- The record compiled by MarketPredictor.generate_prediction. -/
structure PredictionOut where
  signal : Signal
  probability : ℚ
  confidence : ℚ
  leverage : ℚ
  stop_loss : Option ℚ
  take_profit : Option ℚ
  rr_ratio : ℚ
  position_info : Option PositionInfo
deriving DecidableEq

/-- MarketPredictor.generate_prediction: signal, leverage, stop levels and
(for a non-HOLD signal with a stop) position sizing. An uncaught
ZeroDivisionError inside calculate_position_size surfaces as the error
case, as it does in the source, which has no handler around it. -/
def generate_prediction (cfg : PredictorConfig) (probability price : ℚ)
    (indicators : IndicatorMap) (account_balance : ℚ)
    (sentiment : Option ℚ) : Except Unit PredictionOut :=
  let rsi := indicators.rsi.getD 50
  let ema20 := indicators.ema20.getD price
  let atr := indicators.atr.getD (price * 0.02)
  let volatility := indicators.volatility.getD 0.02
  let signal := predict_signal probability rsi price ema20 volatility sentiment
    indicators.adx indicators.volume_ratio indicators.macd indicators.stoch_k
  let leverage := calculate_leverage cfg probability volatility signal
  let sl_tp := calculate_stop_loss_take_profit price signal atr 2
  let base : PredictionOut :=
    { signal := signal
      probability := roundTo 4 probability
      confidence := roundTo 4 (|probability - 0.5| * 2)
      leverage := leverage
      stop_loss := sl_tp.stop_loss
      take_profit := sl_tp.take_profit
      rr_ratio := sl_tp.rr_ratio
      position_info := none }
  if signal ≠ Signal.HOLD then
    match sl_tp.stop_loss with
    | some sl => do
        let pi ← calculate_position_size cfg account_balance price sl leverage
        return { base with position_info := some pi }
    | none => .ok base
  else .ok base

/-- The three circuit-breaker states of exceptions.py. -/
inductive BState where
  | CLOSED
  | OPEN
  | HALF_OPEN
deriving DecidableEq

structure CB where
  failure_threshold : ℕ
  timeout : ℚ
  failure_count : ℕ
  last_failure_time : Option ℚ
  state : BState
deriving DecidableEq

def CB.init (ft : ℕ) (tmo : ℚ) : CB :=
  { failure_threshold := ft, timeout := tmo, failure_count := 0,
    last_failure_time := none, state := BState.CLOSED }

def record_failure (t : ℚ) (s : CB) : CB :=
  { s with failure_count := s.failure_count + 1
           last_failure_time := some t
           state := if s.failure_threshold ≤ s.failure_count + 1
                    then BState.OPEN else s.state }

def reset (s : CB) : CB :=
  { s with failure_count := 0, last_failure_time := none, state := BState.CLOSED }

inductive CallOutcome where
  | returned
  | raisedOpen
  | raisedWrapped
  | crashed
deriving DecidableEq

def execCall (t : ℚ) (ok : Bool) (s : CB) : CB × CallOutcome :=
  if ok then (reset s, CallOutcome.returned)
  else (record_failure t s, CallOutcome.raisedWrapped)

def call (t : ℚ) (ok : Bool) (s : CB) : CB × CallOutcome :=
  if s.state = BState.OPEN then
    match s.last_failure_time with
    | none => (s, CallOutcome.crashed)
    | some lf =>
      if s.timeout < t - lf then
        execCall t ok { s with state := BState.HALF_OPEN }
      else (s, CallOutcome.raisedOpen)
  else execCall t ok s

inductive CBOp where
  | call (t : ℚ) (ok : Bool)
  | recFail (t : ℚ)
  | doReset
deriving DecidableEq

def applyOp (s : CB) : CBOp → CB
  | CBOp.call t ok => (call t ok s).1
  | CBOp.recFail t => record_failure t s
  | CBOp.doReset => reset s

def runOps (s : CB) (ops : List CBOp) : CB := ops.foldl applyOp s

def CBInv (s : CB) : Prop :=
  s.state = BState.OPEN →
    s.failure_threshold ≤ s.failure_count ∧ s.last_failure_time ≠ none

/-- model/predict.py: the data the fallback heuristic reads from the last
rows of the DataFrame; a missing column or NaN value is none, mirroring the
guarding column and notna checks of the source. ema_pair is the pair of
last close and last ema20, volume the pair of recent (5-period) and average
(20-period) mean volume when the frame has more than 20 rows. -/
structure HeurRow where
  ema_pair : Option (ℚ × ℚ) := none
  rsi : Option ℚ := none
  macd : Option ℚ := none
  volume : Option (ℚ × ℚ) := none
deriving DecidableEq

/-- The signal and weight accumulation of _enhanced_fallback_heuristic,
in source order, followed by the weighted average, the additive noise
(random.uniform(-0.03, 0.03) passed in as an argument) and the clamp. -/
def heuristic_prob (r : HeurRow) (noise : ℚ) : ℚ :=
  let sw1 : List ℚ × List ℚ := match r.ema_pair with
    | some p => ([if p.2 < p.1 then 0.6 else 0.4], [0.3])
    | none => ([], [])
  let sw2 : List ℚ × List ℚ := match r.rsi with
    | some v => (sw1.1 ++ [if v < 30 then 0.65 else if 70 < v then 0.35 else 0.5],
                 sw1.2 ++ [0.25])
    | none => sw1
  let sw3 : List ℚ × List ℚ := match r.macd with
    | some m => (sw2.1 ++ [if 0 < m then 0.6 else 0.4], sw2.2 ++ [0.25])
    | none => sw2
  let sw4 : List ℚ × List ℚ := match r.volume with
    | some rv =>
      if 0 < rv.2 then
        if rv.2 * 1.2 < rv.1 then
          match sw3.1.getLast? with
          | some lastS => (sw3.1 ++ [if 0.5 < lastS then 0.6 else 0.4], sw3.2 ++ [0.2])
          | none => (sw3.1 ++ [0.5], sw3.2 ++ [0.2])
        else (sw3.1 ++ [0.5], sw3.2 ++ [0.2])
      else sw3
    | none => sw3
  let prob : ℚ :=
    if sw4.1 ≠ [] ∧ sw4.2 ≠ [] then
      (List.zip sw4.1 sw4.2).foldl (fun acc p => acc + p.1 * p.2) 0 /
        sw4.2.foldl (· + ·) 0
    else 0.5
  max 0 (min 1 (prob + noise))

/-- _enhanced_fallback_heuristic: a throwing DataFrame read (row none) is
caught by the internal handler, which returns 0.5. -/
def enhanced_fallback_heuristic (row : Option HeurRow) (noise : ℚ) : ℚ :=
  match row with
  | none => 0.5
  | some r => heuristic_prob r noise

/-- The environment of one predict_direction call: whether load_model found
an artifact, whether the ml_prediction feature is available, the outcome of
the model path (feature building plus predict_proba, which may raise), and
the heuristic inputs. The ensemble and single-model branches both reduce to
the opaque ml_result. -/
structure PredictEnv where
  model_data : Option Unit
  ml_available : Bool
  ml_result : Except Unit ℚ
  heur_row : Option HeurRow
  noise : ℚ

/-- The body of predict_direction inside its outer try. -/
def predict_direction_try (env : PredictEnv) : Except Unit ℚ :=
  match env.model_data with
  | some _ =>
    if env.ml_available = false then
      .ok (enhanced_fallback_heuristic env.heur_row env.noise)
    else
      match env.ml_result with
      | .ok prob =>
        .ok (if 0 ≤ prob ∧ prob ≤ 1 then prob else max 0 (min 1 prob))
      | .error _ => .ok (enhanced_fallback_heuristic env.heur_row env.noise)
  | none => .ok (enhanced_fallback_heuristic env.heur_row env.noise)

/-- predict_direction with its outer exception handler returning 0.5. -/
def predict_direction (env : PredictEnv) : Except Unit ℚ :=
  match predict_direction_try env with
  | .ok p => .ok p
  | .error _ => .ok 0.5

/-- One entry of the SimpleCache of cache.py; the cached value is an opaque
DataFrame token. -/
structure CacheEntry where
  value : ℕ
  expires_at : ℚ
deriving DecidableEq

/-- SimpleCache.get: returns the value only while now is before expires_at;
an expired entry is deleted and None is returned. Only the returned value
matters to fetch_market_data, so the deletion is implicit here. -/
def cache_get (entry : Option CacheEntry) (now : ℚ) : Option ℕ :=
  match entry with
  | some e => if now < e.expires_at then some e.value else none
  | none => none

/-- EnhancedDataFetcher.fetch_market_data: a fresh cache hit returns
immediately; otherwise the circuit-breaker-wrapped API call plus validation
(folded into the api argument) runs, and on failure the except block
consults the same cached_data binding read before the call. -/
def fetch_market_data (entry : Option CacheEntry) (now : ℚ)
    (api : Except Unit ℕ) : Except Unit ℕ :=
  let cached_data := cache_get entry now
  match cached_data with
  | some df => .ok df
  | none =>
    match api with
    | .ok df => .ok df
    | .error e =>
      match cached_data with
      | some df => .ok df
      | none => .error e

/-- The last DataFrame row read by the last-resort branch of
_combine_signals. -/
structure LastRowCE where
  close : ℚ
  ema20 : ℚ
deriving DecidableEq

/-- Python truthiness of an optional float: None and 0.0 are falsy. -/
def truthy_conf : Option ℚ → Bool
  | none => false
  | some c => decide (c ≠ 0)

/-- The body of UnifiedSignalGenerator._combine_signals inside its try.
A None fallback confidence reaching arithmetic raises TypeError (error
case), as it would in the source. -/
def combine_signals_body (ml : Option Signal) (mlc : Option ℚ)
    (fb : Option Signal) (fbc : Option ℚ) (df : Option LastRowCE)
    (sentiment : ℚ) : Except Unit (Signal × ℚ) :=
  if ml.isSome ∧ truthy_conf mlc = true ∧ 0.6 < mlc.getD 0 then
    if ml = fb then
      match fbc with
      | none => .error ()
      | some fc => .ok (ml.getD Signal.HOLD, min 0.95 ((mlc.getD 0 + fc) / 2 + 0.1))
    else .ok (ml.getD Signal.HOLD, mlc.getD 0 * 0.8)
  else if fb.isSome then
    let sentiment_boost : ℚ :=
      if sentiment ≠ 0 ∧ ((fb = some Signal.BUY ∧ 0.1 < sentiment) ∨
          (fb = some Signal.SELL ∧ sentiment < -0.1)) then 0.1 else 0
    match fbc with
    | none => .error ()
    | some fc => .ok (fb.getD Signal.HOLD, min 0.9 (fc + sentiment_boost))
  else
    match df with
    | none => .error ()
    | some last =>
      if last.ema20 < last.close then .ok (Signal.BUY, 0.4)
      else .ok (Signal.SELL, 0.4)

/-- _combine_signals with its exception handler, which returns
fallback_signal or BUY and fallback_confidence or 0.5 under Python
truthiness. -/
def combine_signals (ml : Option Signal) (mlc : Option ℚ) (fb : Option Signal)
    (fbc : Option ℚ) (df : Option LastRowCE) (sentiment : ℚ) : Signal × ℚ :=
  match combine_signals_body ml mlc fb fbc df sentiment with
  | .ok r => r
  | .error _ =>
    (match fb with
     | some s => s
     | none => Signal.BUY,
     match fbc with
     | some c => if c = 0 then 0.5 else c
     | none => 0.5)

/-- The two settings of config.py read by _generate_fallback_signal, with
their defaults. -/
structure AppSettings where
  rsi_oversold : ℚ := 40
  rsi_overbought : ℚ := 60
deriving DecidableEq

/-- The last DataFrame row read by _generate_fallback_signal; a missing
indicator column is none and raises KeyError on access. -/
structure FallbackRow where
  rsi : Option ℚ := none
  close : Option ℚ := none
  ema20 : Option ℚ := none
  ema50 : Option ℚ := none
  macd : Option ℚ := none
  adx : Option ℚ := none
deriving DecidableEq

/-- The confluence scoring of _generate_fallback_signal: RSI block, EMA
trend block, MACD block and the ADX bonus on the leading side (ties go to
sell, as in the else of the source). -/
def fallback_scores (st : AppSettings) (rsi close ema20 ema50 macd adx : ℚ) :
    ℕ × ℕ :=
  let rsiScore : ℕ × ℕ :=
    if rsi < st.rsi_oversold then (3, 0)
    else if st.rsi_overbought < rsi then (0, 3)
    else if rsi < 40 then (1, 0)
    else if 60 < rsi then (0, 1)
    else (0, 0)
  let emaScore : ℕ × ℕ :=
    if ema20 < close ∧ ema50 < ema20 then (2, 0)
    else if close < ema20 ∧ ema20 < ema50 then (0, 2)
    else if ema20 < close then (1, 0)
    else (0, 1)
  let macdScore : ℕ × ℕ := if 0 < macd then (1, 0) else (0, 1)
  let buy0 := rsiScore.1 + emaScore.1 + macdScore.1
  let sell0 := rsiScore.2 + emaScore.2 + macdScore.2
  if 25 < adx then
    if sell0 < buy0 then (buy0 + 1, sell0) else (buy0, sell0 + 1)
  else (buy0, sell0)

/-- The try block of _generate_fallback_signal: any missing column raises
(error case); otherwise the stronger side wins, never HOLD, at confidence
min(0.9, 0.5 + margin times 0.1). -/
def generate_fallback_signal_body (st : AppSettings) (last : FallbackRow) :
    Except Unit (Signal × ℚ) :=
  match last.rsi, last.close, last.ema20, last.ema50, last.macd, last.adx with
  | some rsi, some close, some ema20, some ema50, some macd, some adx =>
    let scores := fallback_scores st rsi close ema20 ema50 macd adx
    if scores.2 < scores.1 then
      .ok (Signal.BUY, min 0.9 (0.5 + ((scores.1 : ℚ) - (scores.2 : ℚ)) * 0.1))
    else
      .ok (Signal.SELL, min 0.9 (0.5 + ((scores.2 : ℚ) - (scores.1 : ℚ)) * 0.1))
  | _, _, _, _, _, _ => .error ()

/-- _generate_fallback_signal with its two exception handlers: the except
block retries a bare RSI comparison at confidence 0.5, and its own bare
except returns BUY at 0.5; a throwing row access (df none) ends there
too. -/
def generate_fallback_signal (st : AppSettings) (df : Option FallbackRow) :
    Signal × ℚ :=
  match df with
  | none => (Signal.BUY, 0.5)
  | some last =>
    match generate_fallback_signal_body st last with
    | .ok r => r
    | .error _ =>
      match last.rsi with
      | some r => if r < 50 then (Signal.BUY, 0.5) else (Signal.SELL, 0.5)
      | none => (Signal.BUY, 0.5)

theorem abs_rhe_sub_le (x : ℚ) : |(rhe x : ℚ) - x| ≤ 1/2 := by
  have h0 : ((⌊x⌋ : ℤ) : ℚ) ≤ x := Int.floor_le x
  have h1 : x < (⌊x⌋ : ℚ) + 1 := Int.lt_floor_add_one x
  unfold rhe
  split_ifs with hlt hgt heven
  · rw [abs_le]; constructor <;> linarith
  · rw [abs_le]; push_cast; constructor <;> linarith
  · rw [abs_le]; constructor <;> linarith
  · rw [abs_le]; push_cast; constructor <;> linarith

theorem abs_roundTo_sub_le (n : ℕ) (x : ℚ) :
    |roundTo n x - x| ≤ 1 / (2 * 10 ^ n) := by
  have hp : (0:ℚ) < 10 ^ n := by positivity
  have h := abs_rhe_sub_le (x * 10 ^ n)
  have hrw : roundTo n x - x = ((rhe (x * 10 ^ n) : ℚ) - x * 10 ^ n) / 10 ^ n := by
    rw [roundTo]; field_simp; ring
  rw [hrw, abs_div, abs_of_pos hp, div_le_iff₀ hp]
  calc |(rhe (x * 10 ^ n) : ℚ) - x * 10 ^ n| ≤ 1/2 := h
    _ = 1 / (2 * 10 ^ n) * 10 ^ n := by field_simp

theorem roundTo_le (n : ℕ) (x : ℚ) : roundTo n x ≤ x + 1 / (2 * 10 ^ n) := by
  have h := (abs_le.mp (abs_roundTo_sub_le n x)).2
  linarith

theorem rhe_eq_down (x : ℚ) (m : ℤ) (h0 : (m:ℚ) ≤ x) (h1 : x < (m:ℚ) + 1/2) :
    rhe x = m := by
  have hfl : ⌊x⌋ = m := Int.floor_eq_iff.mpr ⟨h0, by linarith⟩
  unfold rhe
  rw [hfl, if_pos (by linarith)]

theorem rhe_eq_up (x : ℚ) (m : ℤ) (h0 : (m:ℚ) + 1/2 < x) (h1 : x < (m:ℚ) + 1) :
    rhe x = m + 1 := by
  have hfl : ⌊x⌋ = m := Int.floor_eq_iff.mpr ⟨by linarith, by linarith⟩
  unfold rhe
  rw [hfl, if_neg (by linarith), if_pos (by linarith)]

theorem rhe_eq_tie (x : ℚ) (m : ℤ) (heq : x = (m:ℚ) + 1/2) :
    rhe x = if m % 2 = 0 then m else m + 1 := by
  have hfl : ⌊x⌋ = m := Int.floor_eq_iff.mpr ⟨by linarith, by linarith⟩
  have hr : x - (m:ℚ) = 1/2 := by rw [heq]; ring
  unfold rhe
  rw [hfl, hr]
  norm_num

/-- Evaluation rule for roundTo when the scaled value is not at a tie. -/
theorem roundTo_eq (n : ℕ) (x y : ℚ) (m : ℤ) (h0 : (m:ℚ) ≤ x * 10 ^ n)
    (h1 : x * 10 ^ n < (m:ℚ) + 1/2) (hy : (m:ℚ) = y * 10 ^ n) :
    roundTo n x = y := by
  have hp : (0:ℚ) < 10 ^ n := by positivity
  rw [roundTo, rhe_eq_down _ m h0 h1, hy, mul_div_assoc, div_self (ne_of_gt hp), mul_one]

theorem pydiv_eq_ok (a b c : ℚ) (hb : b ≠ 0) (hc : a / b = c) :
    pydiv a b = .ok c := by
  unfold pydiv
  rw [if_neg hb, hc]

/-- Helper: the quantity returned by position sizing, multiplied by the
per-unit risk, stays within the risk budget up to the 8-decimal rounding
of the quantity. -/
theorem quantity_stop_loss_bound (M rpu entry mx : ℚ) (hrpu : 0 < rpu)
    (hentry : 0 < entry) :
    roundTo 8 ((M / rpu * entry ⊓ mx) / entry) * rpu ≤ M + rpu / (2 * 10 ^ 8) := by
  have h1 : (M / rpu * entry ⊓ mx) / entry ≤ M / rpu := by
    rw [div_le_iff₀ hentry]
    exact inf_le_left
  have h2 := roundTo_le 8 ((M / rpu * entry ⊓ mx) / entry)
  have h3 : roundTo 8 ((M / rpu * entry ⊓ mx) / entry) * rpu ≤
      (M / rpu + 1 / (2 * 10 ^ 8)) * rpu :=
    mul_le_mul_of_nonneg_right (by linarith) (le_of_lt hrpu)
  calc roundTo 8 ((M / rpu * entry ⊓ mx) / entry) * rpu
      ≤ (M / rpu + 1 / (2 * 10 ^ 8)) * rpu := h3
    _ = M / rpu * rpu + rpu / (2 * 10 ^ 8) := by ring
    _ = M + rpu / (2 * 10 ^ 8) := by rw [div_mul_cancel₀ _ (ne_of_gt hrpu)]

/-- Helper: position sizing with a stop equal to the entry raises
ZeroDivisionError, whatever the balance and leverage. -/
theorem cps_same_entry_stop (cfg : PredictorConfig) (bal entry lev : ℚ) :
    calculate_position_size cfg bal entry entry lev = .error () := by
  simp only [calculate_position_size, pydiv, sub_self, abs_zero]
  simp [bind, Except.bind]

/-- Claim C8: calculate_leverage returns exactly 1.0 for a HOLD signal, for
every probability and volatility and independently of the configured
min_leverage and max_leverage. -/
theorem calculate_leverage_hold_one (cfg : PredictorConfig) (p v : ℚ) :
    calculate_leverage cfg p v Signal.HOLD = 1 := rfl

/-- Claim C6 (amended): with entry 100, atr 2, ratio 2 the source gives
stop 97 and target 106 for STRONG_BUY (1.5 times ATR) and stop 96 and
target 108 for BUY (2 times ATR); the target is entry plus the stop
distance times the ratio. -/
theorem stop_levels_entry100_atr2 :
    (calculate_stop_loss_take_profit 100 Signal.STRONG_BUY 2 2).stop_loss = some 97 ∧
    (calculate_stop_loss_take_profit 100 Signal.STRONG_BUY 2 2).take_profit = some 106 ∧
    (calculate_stop_loss_take_profit 100 Signal.BUY 2 2).stop_loss = some 96 ∧
    (calculate_stop_loss_take_profit 100 Signal.BUY 2 2).take_profit = some 108 := by
  have h97 : roundTo 2 (100 - 2 * 1.5 : ℚ) = 97 :=
    roundTo_eq 2 _ _ 9700 (by norm_num) (by norm_num) (by norm_num)
  have h106 : roundTo 2 (100 + 2 * 1.5 * 2 : ℚ) = 106 :=
    roundTo_eq 2 _ _ 10600 (by norm_num) (by norm_num) (by norm_num)
  have h96 : roundTo 2 (100 - 2 * 2 : ℚ) = 96 :=
    roundTo_eq 2 _ _ 9600 (by norm_num) (by norm_num) (by norm_num)
  have h108 : roundTo 2 (100 + 2 * 2 * 2 : ℚ) = 108 :=
    roundTo_eq 2 _ _ 10800 (by norm_num) (by norm_num) (by norm_num)
  refine ⟨?_, ?_, ?_, ?_⟩ <;>
    simp [calculate_stop_loss_take_profit, h97, h106, h96, h108]

/-- Claim C6, counterexample to the claimed numbers: the STRONG_BUY stop at
entry 100 with atr 2 is 97, not the claimed 96. -/
theorem stop_levels_entry100_atr2_cex :
    ¬((calculate_stop_loss_take_profit 100 Signal.STRONG_BUY 2 2).stop_loss = some 96) := by
  have h97 : roundTo 2 (100 - 2 * 1.5 : ℚ) = 97 :=
    roundTo_eq 2 _ _ 9700 (by norm_num) (by norm_num) (by norm_num)
  simp [calculate_stop_loss_take_profit, h97]

/-- Claim C7 (amended): the returned risk_amount is exactly the rounding of
balance times risk_per_trade to two decimals, hence at most that product
plus 0.005; and the loss at the stop (quantity times per-unit risk) is at
most the product plus the per-unit risk scaled by the half ulp of the
8-decimal quantity rounding. -/
theorem calculate_position_size_risk_bounds (cfg : PredictorConfig)
    (bal entry stop lev : ℚ) (pi : PositionInfo)
    (_hbal : 0 < bal) (hentry : 0 < entry) (hne : stop ≠ entry) (hlev : 1 ≤ lev)
    (hok : calculate_position_size cfg bal entry stop lev = .ok pi) :
    pi.risk_amount = roundTo 2 (bal * cfg.risk_per_trade) ∧
    pi.risk_amount ≤ bal * cfg.risk_per_trade + 1/200 ∧
    pi.quantity * |entry - stop| ≤
      bal * cfg.risk_per_trade + |entry - stop| / (2 * 10 ^ 8) := by
  have hsub : entry - stop ≠ 0 := sub_ne_zero.mpr (Ne.symm hne)
  have hrpu : |entry - stop| ≠ 0 := abs_ne_zero.mpr hsub
  have hrpu_pos : 0 < |entry - stop| := abs_pos.mpr hsub
  have hentry0 : entry ≠ 0 := ne_of_gt hentry
  have hlev0 : lev ≠ 0 := ne_of_gt (lt_of_lt_of_le one_pos hlev)
  simp only [calculate_position_size, pydiv] at hok
  rw [if_neg hrpu] at hok
  simp only [bind, Except.bind] at hok
  rw [if_neg hentry0] at hok
  simp only [bind, Except.bind] at hok
  rw [if_neg hlev0] at hok
  simp only [bind, Except.bind, pure, Except.pure, Except.ok.injEq] at hok
  subst hok
  refine ⟨rfl, ?_, ?_⟩
  · have h := roundTo_le 2 (bal * cfg.risk_per_trade)
    norm_num at h
    simpa using h
  · exact quantity_stop_loss_bound (bal * cfg.risk_per_trade) _ entry (bal * lev)
      hrpu_pos hentry

/-- Claim C7, witness: the bounds instantiated at balance 10000, entry 100,
stop 95, leverage 2 with the default config. -/
theorem calculate_position_size_risk_bounds_witness :
    (200 : ℚ) = roundTo 2 (10000 * create_market_predictor.risk_per_trade) ∧
    (200 : ℚ) ≤ 10000 * create_market_predictor.risk_per_trade + 1/200 ∧
    (40 : ℚ) * |(100 : ℚ) - 95| ≤
      10000 * create_market_predictor.risk_per_trade + |(100 : ℚ) - 95| / (2 * 10 ^ 8) := by
  have e1 : pydiv ((10000 : ℚ) * 2e-2) |(100:ℚ) - 95| = .ok 40 :=
    pydiv_eq_ok _ _ _ (by norm_num) (by norm_num)
  have e2 : ((40 : ℚ) * 100 ⊓ 10000 * 2) = 4000 := by rw [min_def]; norm_num
  have e3 : pydiv (4000 : ℚ) 100 = .ok 40 :=
    pydiv_eq_ok _ _ _ (by norm_num) (by norm_num)
  have e4 : pydiv (4000 : ℚ) 2 = .ok 2000 :=
    pydiv_eq_ok _ _ _ (by norm_num) (by norm_num)
  have hr1 : roundTo 2 (4000 : ℚ) = 4000 :=
    roundTo_eq 2 _ _ 400000 (by norm_num) (by norm_num) (by norm_num)
  have hr2 : roundTo 8 (40 : ℚ) = 40 :=
    roundTo_eq 8 _ _ 4000000000 (by norm_num) (by norm_num) (by norm_num)
  have hr3 : roundTo 2 ((10000 : ℚ) * 2e-2) = 200 :=
    roundTo_eq 2 _ _ 20000 (by norm_num) (by norm_num) (by norm_num)
  have hr4 : roundTo 2 (2000 : ℚ) = 2000 :=
    roundTo_eq 2 _ _ 200000 (by norm_num) (by norm_num) (by norm_num)
  have hok : calculate_position_size create_market_predictor 10000 100 95 2 =
      .ok { position_size := 4000, quantity := 40, risk_amount := 200,
            capital_required := 2000 } := by
    simp only [calculate_position_size, create_market_predictor]
    rw [e1]
    simp only [bind, Except.bind]
    rw [e2, e3]
    simp only [bind, Except.bind]
    rw [e4]
    simp only [bind, Except.bind]
    rw [hr1, hr2, hr3, hr4]
    rfl
  exact calculate_position_size_risk_bounds create_market_predictor 10000 100 95 2 _
    (by norm_num) (by norm_num) (by norm_num) (by norm_num) hok

/-- Claim C7, counterexample to the unamended bound: at balance 0.75 with
the default 2 percent risk_per_trade, the rounded risk_amount 0.02 strictly
exceeds balance times risk_per_trade, which is 0.015. -/
theorem calculate_position_size_risk_cex :
    calculate_position_size create_market_predictor 0.75 100 95 1 =
      .ok { position_size := 3/10
            quantity := 3/1000
            risk_amount := 1/50
            capital_required := 3/10 } ∧
    ¬((1/50 : ℚ) ≤ 0.75 * 0.02) := by
  have e1 : pydiv ((0.75 : ℚ) * 2e-2) |(100:ℚ) - 95| = .ok (3/1000) :=
    pydiv_eq_ok _ _ _ (by norm_num) (by norm_num)
  have e2 : ((3/1000 : ℚ) * 100 ⊓ 0.75 * 1) = 3/10 := by rw [min_def]; norm_num
  have e3 : pydiv (3/10 : ℚ) 100 = .ok (3/1000) :=
    pydiv_eq_ok _ _ _ (by norm_num) (by norm_num)
  have e4 : pydiv (3/10 : ℚ) 1 = .ok (3/10) :=
    pydiv_eq_ok _ _ _ (by norm_num) (by norm_num)
  have hmr : (0.75 : ℚ) * 2e-2 = 3/200 := by norm_num
  have hr1 : roundTo 2 (3/10 : ℚ) = 3/10 :=
    roundTo_eq 2 _ _ 30 (by norm_num) (by norm_num) (by norm_num)
  have hr2 : roundTo 8 (3/1000 : ℚ) = 3/1000 :=
    roundTo_eq 8 _ _ 300000 (by norm_num) (by norm_num) (by norm_num)
  have hr3 : roundTo 2 (3/200 : ℚ) = 1/50 := by
    rw [roundTo, rhe_eq_tie _ 1 (by norm_num)]
    norm_num
  constructor
  · simp only [calculate_position_size, create_market_predictor]
    rw [e1]
    simp only [bind, Except.bind]
    rw [e2, e3]
    simp only [bind, Except.bind]
    rw [e4]
    simp only [bind, Except.bind]
    rw [hmr, hr1, hr2, hr3]
    rfl
  · norm_num

/-- Claim C5: in a ranging regime (ADX below 20) predict_signal with RSI 50
returns HOLD for every probability, price, EMA, volatility, sentiment,
volume ratio, MACD and stochastic; and any non-HOLD output in a ranging
regime forces RSI below 25 with buy score at least 4, or RSI above 75 with
sell score at least 4. -/
theorem predict_signal_ranging_regime (probability price ema20 volatility rsi a : ℚ)
    (sentiment volume_ratio macd stoch_k : Option ℚ) (ha : a < 20) :
    predict_signal probability 50 price ema20 volatility sentiment (some 15)
        volume_ratio macd stoch_k = Signal.HOLD ∧
    (predict_signal probability rsi price ema20 volatility sentiment (some a)
        volume_ratio macd stoch_k ≠ Signal.HOLD →
      (rsi < 25 ∧ 4 ≤ (confluence_scores probability rsi price ema20 sentiment
          (some a) volume_ratio macd stoch_k).1) ∨
      (75 < rsi ∧ 4 ≤ (confluence_scores probability rsi price ema20 sentiment
          (some a) volume_ratio macd stoch_k).2)) := by
  have hr : decide (a < (20:ℚ)) = true := decide_eq_true ha
  constructor
  · have h15 : decide ((15:ℚ) < 20) = true := decide_eq_true (by norm_num)
    simp only [predict_signal, h15, if_true]
    norm_num
  · simp only [predict_signal, hr, if_true]
    split_ifs with h1 h2
    · intro _; exact Or.inl h1
    · intro _; exact Or.inr h2
    · intro hcon; exact absurd rfl hcon

/-- Claim C5, witness: ADX 15 and RSI 50 at probability 0.9 yields HOLD. -/
theorem predict_signal_ranging_regime_witness :
    predict_signal 0.9 50 100 100 0.02 none (some 15) none none none = Signal.HOLD :=
  (predict_signal_ranging_regime 0.9 100 100 0.02 50 15 none none none none
    (by norm_num)).1

/-- Claim C3: generate_prediction with a non-HOLD signal and indicator atr
equal to 0 raises ZeroDivisionError inside calculate_position_size, because
the stop equals the entry and the per-unit risk is 0; it does not return
null risk fields. -/
theorem generate_prediction_zero_atr_raises :
    generate_prediction create_market_predictor 0.8 100
      { rsi := some 20, ema20 := some 90, atr := some 0, volatility := some 0.02,
        adx := some 30 } 10000 none = .error () := by
  have hsig : predict_signal 0.8 20 100 90 0.02 none (some 30) none none none =
      Signal.BUY := by
    norm_num [predict_signal, confluence_scores]
  have h100 : roundTo 2 (100 : ℚ) = 100 :=
    roundTo_eq 2 _ _ 10000 (by norm_num) (by norm_num) (by norm_num)
  have hstop : (calculate_stop_loss_take_profit 100 Signal.BUY 0 2).stop_loss =
      some 100 := by
    simp [calculate_stop_loss_take_profit, h100]
  simp only [generate_prediction, Option.getD_some]
  rw [hsig, hstop]
  simp only [ne_eq, reduceCtorEq, not_false_eq_true, if_true, ite_true]
  rw [cps_same_entry_stop]
  simp [bind, Except.bind]

theorem CBInv_record_failure (t : ℚ) (s : CB) (h : CBInv s) :
    CBInv (record_failure t s) := by
  intro hopen
  simp only [record_failure] at hopen ⊢
  constructor
  · split_ifs at hopen with hc
    · exact hc
    · have := (h hopen).1
      omega
  · simp

theorem CBInv_reset (s : CB) : CBInv (reset s) := by
  intro hopen
  simp [reset] at hopen

theorem CBInv_execCall (t : ℚ) (ok : Bool) (s : CB) (h : CBInv s) :
    CBInv (execCall t ok s).1 := by
  unfold execCall
  split_ifs
  · exact CBInv_reset s
  · exact CBInv_record_failure t s h

theorem CBInv_call (t : ℚ) (ok : Bool) (s : CB) (h : CBInv s) :
    CBInv (call t ok s).1 := by
  unfold call
  split_ifs with hopen
  · match hlf : s.last_failure_time with
    | none => simpa [hlf] using h
    | some lf =>
      simp only [hlf]
      split_ifs with ht
      · apply CBInv_execCall
        intro hcon
        simp at hcon
      · exact h
  · exact CBInv_execCall t ok s h

theorem CBInv_applyOp (s : CB) (op : CBOp) (h : CBInv s) : CBInv (applyOp s op) := by
  cases op with
  | call t ok => exact CBInv_call t ok s h
  | recFail t => exact CBInv_record_failure t s h
  | doReset => exact CBInv_reset s

theorem CBInv_runOps (s : CB) (ops : List CBOp) (h : CBInv s) :
    CBInv (runOps s ops) := by
  induction ops generalizing s with
  | nil => exact h
  | cons op rest ih => exact ih _ (CBInv_applyOp s op h)

theorem heuristic_range (row : Option HeurRow) (noise : ℚ) :
    0 ≤ enhanced_fallback_heuristic row noise ∧
    enhanced_fallback_heuristic row noise ≤ 1 := by
  cases row with
  | none => simp [enhanced_fallback_heuristic]; norm_num
  | some r =>
    simp only [enhanced_fallback_heuristic, heuristic_prob]
    exact ⟨le_max_left 0 _, max_le (by norm_num) (min_le_left 1 _)⟩

theorem predict_direction_try_ok_range (env : PredictEnv) (p : ℚ)
    (h : predict_direction_try env = .ok p) : 0 ≤ p ∧ p ≤ 1 := by
  unfold predict_direction_try at h
  cases hmd : env.model_data with
  | none =>
    rw [hmd] at h
    simp only [Except.ok.injEq] at h
    exact h ▸ heuristic_range env.heur_row env.noise
  | some u =>
    rw [hmd] at h
    simp only [] at h
    split_ifs at h with hav
    · simp only [Except.ok.injEq] at h
      exact h ▸ heuristic_range env.heur_row env.noise
    · cases hml : env.ml_result with
      | error e =>
        rw [hml] at h
        simp only [Except.ok.injEq] at h
        exact h ▸ heuristic_range env.heur_row env.noise
      | ok prob =>
        rw [hml] at h
        simp only [Except.ok.injEq] at h
        subst h
        split_ifs with hin
        · exact hin
        · exact ⟨le_max_left 0 _, max_le (by norm_num) (min_le_left 1 _)⟩

/-- Claim C2: predict_direction never raises and always yields a value in
the unit interval; with no model artifact, or when the model path raises
while ML is available, it returns the heuristic value; and when even the
heuristic DataFrame read fails the heuristic is 0.5, the last resort. -/
theorem predict_direction_total_in_range (env : PredictEnv) :
    (∃ p, predict_direction env = .ok p ∧ 0 ≤ p ∧ p ≤ 1) ∧
    (env.model_data = none →
      predict_direction env = .ok (enhanced_fallback_heuristic env.heur_row env.noise)) ∧
    (∀ u e, env.model_data = some u → env.ml_available = true →
      env.ml_result = .error e →
      predict_direction env = .ok (enhanced_fallback_heuristic env.heur_row env.noise)) ∧
    (env.heur_row = none → enhanced_fallback_heuristic env.heur_row env.noise = 0.5) := by
  refine ⟨?_, ?_, ?_, ?_⟩
  · unfold predict_direction
    cases htry : predict_direction_try env with
    | ok p => exact ⟨p, rfl, predict_direction_try_ok_range env p htry⟩
    | error e => exact ⟨0.5, rfl, by norm_num⟩
  · intro hmd
    unfold predict_direction predict_direction_try
    rw [hmd]
  · intro u e hmd hav hml
    unfold predict_direction predict_direction_try
    rw [hmd, hml]
    simp [hav]
  · intro hr
    rw [hr]
    rfl

/-- Claim C2, witness: with no artifact and a failing DataFrame read the
result is exactly 0.5. -/
theorem predict_direction_total_in_range_witness :
    predict_direction
      { model_data := none, ml_available := true, ml_result := Except.error (),
        heur_row := none, noise := 0 } = .ok 0.5 := by
  have h := (predict_direction_total_in_range
    ⟨none, true, Except.error (), none, 0⟩).2.1 rfl
  have h2 := (predict_direction_total_in_range
    ⟨none, true, Except.error (), none, 0⟩).2.2.2 rfl
  rw [h2] at h
  exact h

/-- Claim C4: with a stale cache entry (expired at 10, now 20) and a
failing upstream call, fetch_market_data propagates the error instead of
returning the stale entry: cache.get already evicted the entry and
returned None, so the stale-fallback branch can never fire. -/
theorem fetch_market_data_stale_error_propagates :
    fetch_market_data (some { value := 42, expires_at := 10 }) 20 (.error ()) =
      .error () := by
  have hlt : ¬((20:ℚ) < 10) := by norm_num
  simp only [fetch_market_data, cache_get]
  rw [if_neg hlt]

theorem combine_signals_body_no_hold (ml : Option Signal) (mlc : Option ℚ)
    (fb : Option Signal) (fbc : Option ℚ) (df : Option LastRowCE) (sentiment : ℚ)
    (r : Signal × ℚ) (hml : ml ≠ some Signal.HOLD) (hfb : fb ≠ some Signal.HOLD)
    (h : combine_signals_body ml mlc fb fbc df sentiment = .ok r) :
    r.1 ≠ Signal.HOLD := by
  unfold combine_signals_body at h
  split_ifs at h with h1 h2 h3 hboost
  · cases fbc with
    | none => simp at h
    | some fc =>
      simp only [Except.ok.injEq] at h
      subst h
      cases ml with
      | none => simp at h1
      | some s =>
        simp only [Option.getD_some]
        exact fun hcon => hml (by rw [hcon])
  · simp only [Except.ok.injEq] at h
    subst h
    cases ml with
    | none => simp at h1
    | some s =>
      simp only [Option.getD_some]
      exact fun hcon => hml (by rw [hcon])
  · cases fbc with
    | none => simp at h
    | some fc =>
      simp only [Except.ok.injEq] at h
      subst h
      cases fb with
      | none => simp at h3
      | some s =>
        simp only [Option.getD_some]
        exact fun hcon => hfb (by rw [hcon])
  · cases fbc with
    | none => simp at h
    | some fc =>
      simp only [Except.ok.injEq] at h
      subst h
      cases fb with
      | none => simp at h3
      | some s =>
        simp only [Option.getD_some]
        exact fun hcon => hfb (by rw [hcon])
  · cases df with
    | none => simp at h
    | some last =>
      simp only [] at h
      split_ifs at h <;> simp only [Except.ok.injEq] at h <;> subst h <;> simp

/-- Claim C1 (amended): the combiner never invents HOLD. Whenever neither
the ML signal nor the fallback signal is HOLD (either may be null), the
combined signal is not HOLD; but when the ML path hands it HOLD with
confidence above 0.6 it returns that HOLD verbatim. -/
theorem combine_signals_no_new_hold (ml : Option Signal) (mlc : Option ℚ)
    (fb : Option Signal) (fbc : Option ℚ) (df : Option LastRowCE) (sentiment : ℚ)
    (hml : ml ≠ some Signal.HOLD) (hfb : fb ≠ some Signal.HOLD) :
    (combine_signals ml mlc fb fbc df sentiment).1 ≠ Signal.HOLD := by
  unfold combine_signals
  cases hbody : combine_signals_body ml mlc fb fbc df sentiment with
  | ok r =>
    exact combine_signals_body_no_hold ml mlc fb fbc df sentiment r hml hfb hbody
  | error e =>
    cases fb with
    | none => simp
    | some s =>
      simp only []
      exact fun hcon => hfb (by rw [hcon])

/-- Claim C1, witness: with both paths null the last-resort EMA cross on a
rising row yields a non-HOLD signal. -/
theorem combine_signals_no_new_hold_witness :
    (combine_signals none none none none (some { close := 2, ema20 := 1 }) 0).1 ≠
      Signal.HOLD :=
  combine_signals_no_new_hold none none none none (some { close := 2, ema20 := 1 }) 0
    (by simp) (by simp)

/-- Claim C1, counterexample to the claim as stated: an ML signal of HOLD
at confidence 0.7 with a non-null fallback BUY at 0.6 is returned as HOLD,
so the combiner does return HOLD although both inputs are non-null. -/
theorem combine_signals_hold_cex :
    (combine_signals (some Signal.HOLD) (some 0.7) (some Signal.BUY) (some 0.6)
      none 0).1 = Signal.HOLD := by
  have h1 : (some Signal.HOLD).isSome ∧ truthy_conf (some 0.7) = true ∧
      (0.6:ℚ) < (some (0.7:ℚ)).getD 0 := by
    refine ⟨rfl, ?_, by norm_num⟩
    simp only [truthy_conf]
    exact decide_eq_true (by norm_num)
  unfold combine_signals combine_signals_body
  rw [if_pos h1, if_neg (by simp)]
  rfl

theorem generate_fallback_signal_body_ok (st : AppSettings) (last : FallbackRow)
    (r : Signal × ℚ) (h : generate_fallback_signal_body st last = .ok r) :
    (r.1 = Signal.BUY ∨ r.1 = Signal.SELL) ∧ 1/2 ≤ r.2 ∧ r.2 ≤ 9/10 := by
  obtain ⟨rsi?, close?, ema20?, ema50?, macd?, adx?⟩ := last
  cases rsi? <;> cases close? <;> cases ema20? <;> cases ema50? <;>
    cases macd? <;> cases adx? <;> simp only [generate_fallback_signal_body] at h <;>
    try exact absurd h (by simp)
  rename_i rsi close ema20 ema50 macd adx
  split_ifs at h with hlt <;> simp only [Except.ok.injEq] at h <;> subst h
  · refine ⟨Or.inl rfl, ?_, le_trans (min_le_left _ _) (by norm_num)⟩
    have h2 : ((fallback_scores st rsi close ema20 ema50 macd adx).2 : ℚ) + 1 ≤
        ((fallback_scores st rsi close ema20 ema50 macd adx).1 : ℚ) := by
      exact_mod_cast hlt
    exact le_min (by norm_num) (by linarith)
  · refine ⟨Or.inr rfl, ?_, le_trans (min_le_left _ _) (by norm_num)⟩
    have h2 : ((fallback_scores st rsi close ema20 ema50 macd adx).1 : ℚ) ≤
        ((fallback_scores st rsi close ema20 ema50 macd adx).2 : ℚ) := by
      exact_mod_cast not_lt.mp hlt
    exact le_min (by norm_num) (by linarith)

/-- Claim C10: for every settings object and every input row, including a
missing row or missing columns, _generate_fallback_signal returns BUY or
SELL (never HOLD, never null) with confidence inside the closed interval
from 0.5 to 0.9, and never raises (the function is total). -/
theorem generate_fallback_signal_total (st : AppSettings) (df : Option FallbackRow) :
    ((generate_fallback_signal st df).1 = Signal.BUY ∨
     (generate_fallback_signal st df).1 = Signal.SELL) ∧
    1/2 ≤ (generate_fallback_signal st df).2 ∧
    (generate_fallback_signal st df).2 ≤ 9/10 := by
  cases df with
  | none =>
    simp only [generate_fallback_signal]
    exact ⟨Or.inl trivial, by norm_num, by norm_num⟩
  | some last =>
    simp only [generate_fallback_signal]
    cases hbody : generate_fallback_signal_body st last with
    | ok r =>
      simp only [hbody]
      exact generate_fallback_signal_body_ok st last r hbody
    | error e =>
      simp only [hbody]
      cases hrsi : last.rsi with
      | none =>
        simp only [hrsi]
        exact ⟨Or.inl trivial, by norm_num, by norm_num⟩
      | some v =>
        simp only [hrsi]
        split_ifs
        · exact ⟨Or.inl rfl, by norm_num, by norm_num⟩
        · exact ⟨Or.inr rfl, by norm_num, by norm_num⟩

theorem execCall_true (t : ℚ) (s : CB) :
    execCall t true s = (reset s, CallOutcome.returned) := by
  simp [execCall]

theorem execCall_snd (t : ℚ) (ok : Bool) (s : CB) :
    (execCall t ok s).2 = CallOutcome.returned ∨
    (execCall t ok s).2 = CallOutcome.raisedWrapped := by
  cases ok <;> simp [execCall]

theorem failure_threshold_applyOp (s : CB) (op : CBOp) :
    (applyOp s op).failure_threshold = s.failure_threshold := by
  cases op with
  | call t ok =>
    simp only [applyOp, call]
    split_ifs with h
    · cases hlf : s.last_failure_time with
      | none => simp [hlf]
      | some lf =>
        simp only [hlf]
        split_ifs with ht
        · cases ok <;> simp [execCall, record_failure, reset]
        · rfl
    · cases ok <;> simp [execCall, record_failure, reset]
  | recFail t => simp [applyOp, record_failure]
  | doReset => simp [applyOp, reset]

theorem failure_threshold_runOps (s : CB) (ops : List CBOp) :
    (runOps s ops).failure_threshold = s.failure_threshold := by
  induction ops generalizing s with
  | nil => rfl
  | cons op rest ih =>
    show (runOps (applyOp s op) rest).failure_threshold = s.failure_threshold
    rw [ih, failure_threshold_applyOp]

theorem call_raisedOpen (t : ℚ) (ok : Bool) (s : CB) (h : CBInv s)
    (hro : (call t ok s).2 = CallOutcome.raisedOpen) :
    s.failure_threshold ≤ s.failure_count ∧ s.last_failure_time ≠ none ∧
    s.state = BState.OPEN := by
  by_cases hopen : s.state = BState.OPEN
  · obtain ⟨h1, h2⟩ := h hopen
    exact ⟨h1, h2, hopen⟩
  · exfalso
    unfold call at hro
    rw [if_neg hopen] at hro
    cases ok <;> simp [execCall] at hro

theorem call_no_crash (t : ℚ) (ok : Bool) (s : CB) (h : CBInv s) :
    (call t ok s).2 ≠ CallOutcome.crashed := by
  unfold call
  split_ifs with hopen
  · cases hlf : s.last_failure_time with
    | none => exact absurd hlf (h hopen).2
    | some lf =>
      simp only [hlf]
      split_ifs with ht
      · cases ok <;> simp [execCall]
      · simp
  · cases ok <;> simp [execCall]

theorem call_success (t : ℚ) (s : CB) (h : CBInv s)
    (hret : (call t true s).2 = CallOutcome.returned) :
    (call t true s).1.state = BState.CLOSED ∧ (call t true s).1.failure_count = 0 := by
  unfold call at hret ⊢
  split_ifs at hret ⊢ with hopen
  · cases hlf : s.last_failure_time with
    | none => exact absurd hlf (h hopen).2
    | some lf =>
      simp only [hlf] at hret ⊢
      split_ifs at hret ⊢ with ht
      rw [execCall_true]
      simp [reset]
  · rw [execCall_true]
    simp [reset]

theorem circuit_breaker_invariants (ft : ℕ) (tmo : ℚ) (ops : List CBOp) (s : CB)
    (hs : s = runOps (CB.init ft tmo) ops) (t : ℚ) (ok : Bool) :
    CBInv s ∧
    ((call t ok s).2 = CallOutcome.raisedOpen →
      ft ≤ s.failure_count ∧ s.last_failure_time ≠ none ∧ s.state = BState.OPEN) ∧
    (call t ok s).2 ≠ CallOutcome.crashed ∧
    ((call t true s).2 = CallOutcome.returned →
      (call t true s).1.state = BState.CLOSED ∧ (call t true s).1.failure_count = 0) := by
  have hinv : CBInv s := by
    rw [hs]
    exact CBInv_runOps _ _ (by intro h; simp [CB.init] at h)
  have hthr : s.failure_threshold = ft := by
    rw [hs, failure_threshold_runOps]
    rfl
  refine ⟨hinv, ?_, call_no_crash t ok s hinv, fun hret => call_success t s hinv hret⟩
  intro hro
  obtain ⟨h1, h2, h3⟩ := call_raisedOpen t ok s hinv hro
  exact ⟨hthr ▸ h1, h2, h3⟩

/-- Claim C9, witness: the conjunction instantiated on the empty operation
trace with the default threshold 5 and timeout 60. -/
theorem circuit_breaker_invariants_witness :
    CBInv (runOps (CB.init 5 60) []) ∧
    ((call 10 true (runOps (CB.init 5 60) [])).2 = CallOutcome.raisedOpen →
      5 ≤ (runOps (CB.init 5 60) []).failure_count ∧
      (runOps (CB.init 5 60) []).last_failure_time ≠ none ∧
      (runOps (CB.init 5 60) []).state = BState.OPEN) ∧
    (call 10 true (runOps (CB.init 5 60) [])).2 ≠ CallOutcome.crashed ∧
    ((call 10 true (runOps (CB.init 5 60) [])).2 = CallOutcome.returned →
      (call 10 true (runOps (CB.init 5 60) [])).1.state = BState.CLOSED ∧
      (call 10 true (runOps (CB.init 5 60) [])).1.failure_count = 0) :=
  circuit_breaker_invariants 5 60 [] (runOps (CB.init 5 60) []) rfl 10 true

end Syscry
